import Mathlib

/-!
# Verification of the movie recommendation core

Shallow embedding of the two recommendation pipelines of the repository:

* `src/content_based.py` — genre-vector similarity indexing
  (`fit_content_model`, `recommend_by_title`);
* `src/collaborative_filtering.py` — user-based collaborative filtering
  (`fit_cf_model`, `recommend_for_user`).

Modelling conventions:

* `pandas` data frames become lists of records (`Movie`, `RatingEvent`);
* the scipy CSR sparse matrix becomes, per user row, a sorted association
  list of `(column index, stored value)` pairs; absent entries are absent
  pairs, mirroring the sparsity-encodes-absence invariant;
* floating point arithmetic is modelled exactly: rationals `ℚ` wherever the
  code manipulates ratings, counts and means, and real numbers `ℝ` where a
  square root enters (cosine similarity, weighted predictions).  A cosine
  similarity value `d / (sqrt na * sqrt nb)` is carried as the exact pair
  `SimVal.mk d (na * nb)`, interpreted by `SimVal.toReal` as `d / sqrt (na*nb)`;
  comparisons on such values (used by the argsort steps) are decidable by
  cross-multiplying squares, see `SimVal.le` and `SimVal.le_iff_toReal`;
* `np.argsort` / `DataFrame.sort_values` / `list.sort` are modelled by a
  stable insertion sort `sortByLE`.  NumPy's quicksort leaves the relative
  order of tied keys unspecified; the embedding fixes the stable order
  (original index order on ties), which is one of the orders the source may
  produce and is the order the spec prescribes;
* Python string operations `strip` / `split("|")` are modelled character by
  character (`trimChars`, `splitOnBar`) with Python's semantics.
-/

namespace MovieRec

/-! ## Stable insertion sort and sorted deduplicated id lists -/

/-- Insert `x` into `l`, placing it before the first element `y` with `le x y`.
Used to build a stable sort. -/
def insertLE {α : Type} (le : α → α → Bool) (x : α) : List α → List α
  | [] => [x]
  | y :: ys => if le x y then x :: y :: ys else y :: insertLE le x ys

/-- Stable insertion sort: ties keep their original relative order when `le`
holds both ways. -/
def sortByLE {α : Type} (le : α → α → Bool) : List α → List α
  | [] => []
  | x :: xs => insertLE le x (sortByLE le xs)

theorem mem_insertLE {α : Type} {le : α → α → Bool} {x a : α} {l : List α} :
    a ∈ insertLE le x l ↔ a = x ∨ a ∈ l := by
  induction l with
  | nil => simp [insertLE]
  | cons y ys ih =>
    by_cases h : le x y = true
    · simp [insertLE, h]
    · simp only [insertLE, if_neg h, List.mem_cons, ih]
      tauto

theorem length_insertLE {α : Type} (le : α → α → Bool) (x : α) (l : List α) :
    (insertLE le x l).length = l.length + 1 := by
  induction l with
  | nil => rfl
  | cons y ys ih =>
    by_cases h : le x y = true <;> simp [insertLE, h, ih]

theorem mem_sortByLE {α : Type} {le : α → α → Bool} {a : α} {l : List α} :
    a ∈ sortByLE le l ↔ a ∈ l := by
  induction l with
  | nil => simp [sortByLE]
  | cons x xs ih => simp [sortByLE, mem_insertLE, ih]

theorem length_sortByLE {α : Type} (le : α → α → Bool) (l : List α) :
    (sortByLE le l).length = l.length := by
  induction l with
  | nil => rfl
  | cons x xs ih => simp [sortByLE, length_insertLE, ih]

/-- Insert a number into a strictly ascending list, dropping it if present.
`sortedUnique` below models `sorted(pandas.Series.unique(...))`. -/
def insertUnique (x : Nat) : List Nat → List Nat
  | [] => [x]
  | y :: ys =>
    if x < y then x :: y :: ys
    else if x = y then y :: ys
    else y :: insertUnique x ys

/-- Ascending list of the distinct elements of `l`. -/
def sortedUnique (l : List Nat) : List Nat := l.foldr insertUnique []

theorem mem_insertUnique {x a : Nat} {l : List Nat} :
    a ∈ insertUnique x l ↔ a = x ∨ a ∈ l := by
  induction l with
  | nil => simp [insertUnique]
  | cons y ys ih =>
    by_cases h1 : x < y
    · simp [insertUnique, h1]
    · by_cases h2 : x = y
      · subst h2
        have hsame : insertUnique x (x :: ys) = x :: ys := by
          simp [insertUnique, h1]
        rw [hsame]
        simp only [List.mem_cons]
        tauto
      · simp only [insertUnique, if_neg h1, if_neg h2, List.mem_cons, ih]
        tauto

theorem pairwise_insertUnique {x : Nat} {l : List Nat}
    (h : l.Pairwise (· < ·)) : (insertUnique x l).Pairwise (· < ·) := by
  induction l with
  | nil => simp [insertUnique]
  | cons y ys ih =>
    rcases List.pairwise_cons.1 h with ⟨hy, hys⟩
    by_cases h1 : x < y
    · simp only [insertUnique, if_pos h1]
      refine List.pairwise_cons.2 ⟨?_, h⟩
      intro a ha
      rcases List.mem_cons.1 ha with rfl | ha
      · exact h1
      · exact Nat.lt_trans h1 (hy a ha)
    · by_cases h2 : x = y
      · simp only [insertUnique, if_neg h1, if_pos h2]
        exact h
      · have hyx : y < x := by omega
        simp only [insertUnique, if_neg h1, if_neg h2]
        refine List.pairwise_cons.2 ⟨?_, ih hys⟩
        intro a ha
        rcases mem_insertUnique.1 ha with rfl | ha
        · exact hyx
        · exact hy a ha

theorem pairwise_sortedUnique (l : List Nat) :
    (sortedUnique l).Pairwise (· < ·) := by
  induction l with
  | nil => simp [sortedUnique]
  | cons x xs ih => exact pairwise_insertUnique ih

theorem mem_sortedUnique {a : Nat} {l : List Nat} :
    a ∈ sortedUnique l ↔ a ∈ l := by
  induction l with
  | nil => simp [sortedUnique]
  | cons x xs ih =>
    simp only [sortedUnique, List.foldr_cons]
    rw [show List.foldr insertUnique [] xs = sortedUnique xs from rfl] at *
    simp [mem_insertUnique, ih]

theorem nodup_sortedUnique (l : List Nat) : (sortedUnique l).Nodup :=
  (pairwise_sortedUnique l).imp Nat.ne_of_lt

/-! ## Exact cosine-similarity values

A cosine similarity produced by `sklearn.metrics.pairwise.cosine_similarity`
has the form `d / (sqrt na * sqrt nb)` where `d` is a dot product and
`na`, `nb` are the squared norms of the two rows.  The embedding carries the
exact rational pair `⟨d, na * nb⟩` and interprets it as the real number
`d / sqrt (na * nb)`; the zero-norm guard of sklearn (`normalize` maps a zero
row to itself, so similarities against it are 0) is represented as `⟨0, 1⟩`.  -/

structure SimVal where
  num : ℚ
  den : ℚ
deriving DecidableEq

noncomputable def SimVal.toReal (a : SimVal) : ℝ := (a.num : ℝ) / Real.sqrt (a.den : ℝ)

/-- Decidable comparison of two similarity values, by cross-multiplying
squares; agrees with `≤` on the real interpretations (`SimVal.le_iff_toReal`). -/
def SimVal.le (a b : SimVal) : Bool :=
  if a.num < 0 then decide (0 ≤ b.num) || decide (b.num ^ 2 * a.den ≤ a.num ^ 2 * b.den)
  else decide (0 ≤ b.num) && decide (a.num ^ 2 * b.den ≤ b.num ^ 2 * a.den)

theorem sq_le_sq_iff_of_nonneg {x y : ℝ} (hx : 0 ≤ x) (hy : 0 ≤ y) :
    x ^ 2 ≤ y ^ 2 ↔ x ≤ y := by
  constructor
  · intro h
    by_contra hlt
    push_neg at hlt
    exact absurd (pow_le_pow_left hy hlt.le 2) (by nlinarith)
  · intro h
    exact pow_le_pow_left hx h 2

/-- The decidable order on `SimVal` agrees with the order of the real
cosine-similarity values, provided denominators are positive (they always are:
either a genuine product of nonzero squared norms, or the guard value `⟨0,1⟩`). -/
theorem SimVal.le_iff_toReal {a b : SimVal} (ha : 0 < a.den) (hb : 0 < b.den) :
    SimVal.le a b = true ↔ a.toReal ≤ b.toReal := by
  have hA : (0:ℝ) < Real.sqrt (a.den : ℝ) := Real.sqrt_pos.2 (by exact_mod_cast ha)
  have hB : (0:ℝ) < Real.sqrt (b.den : ℝ) := Real.sqrt_pos.2 (by exact_mod_cast hb)
  have hiff : a.toReal ≤ b.toReal ↔
      (a.num : ℝ) * Real.sqrt (b.den : ℝ) ≤ (b.num : ℝ) * Real.sqrt (a.den : ℝ) := by
    unfold SimVal.toReal
    exact div_le_div_iff hA hB
  have hsqA : Real.sqrt (a.den : ℝ) ^ 2 = (a.den : ℝ) := Real.sq_sqrt (by positivity)
  have hsqB : Real.sqrt (b.den : ℝ) ^ 2 = (b.den : ℝ) := Real.sq_sqrt (by positivity)
  by_cases han : a.num < 0
  · by_cases hbn : 0 ≤ b.num
    · simp only [SimVal.le, if_pos han, decide_eq_true_eq, Bool.or_eq_true]
      constructor
      · intro _
        rw [hiff]
        have h1 : (a.num : ℝ) * Real.sqrt (b.den : ℝ) ≤ 0 := by
          apply mul_nonpos_of_nonpos_of_nonneg _ hB.le
          exact_mod_cast han.le
        have h2 : (0:ℝ) ≤ (b.num : ℝ) * Real.sqrt (a.den : ℝ) := by
          apply mul_nonneg _ hA.le
          exact_mod_cast hbn
        linarith
      · intro _
        exact Or.inl hbn
    · push_neg at hbn
      simp only [SimVal.le, if_pos han, decide_eq_true_eq, Bool.or_eq_true]
      rw [hiff]
      have hax : (a.num : ℝ) * Real.sqrt (b.den : ℝ) ≤ 0 := by
        apply mul_nonpos_of_nonpos_of_nonneg _ hB.le
        exact_mod_cast han.le
      have hbx : (b.num : ℝ) * Real.sqrt (a.den : ℝ) ≤ 0 := by
        apply mul_nonpos_of_nonpos_of_nonneg _ hA.le
        exact_mod_cast hbn.le
      have hneg : (a.num : ℝ) * Real.sqrt (b.den : ℝ) ≤ (b.num : ℝ) * Real.sqrt (a.den : ℝ) ↔
          ((b.num : ℝ) * Real.sqrt (a.den : ℝ)) ^ 2 ≤ ((a.num : ℝ) * Real.sqrt (b.den : ℝ)) ^ 2 := by
        rw [show ((b.num : ℝ) * Real.sqrt (a.den : ℝ)) ^ 2 = (-((b.num : ℝ) * Real.sqrt (a.den : ℝ))) ^ 2 by ring,
            show ((a.num : ℝ) * Real.sqrt (b.den : ℝ)) ^ 2 = (-((a.num : ℝ) * Real.sqrt (b.den : ℝ))) ^ 2 by ring,
            sq_le_sq_iff_of_nonneg (by linarith) (by linarith)]
        constructor <;> intro hw <;> linarith
      constructor
      · rintro (h | h)
        · exact absurd h (not_le.2 hbn)
        · rw [hneg]
          rw [mul_pow, mul_pow, hsqA, hsqB]
          have hcast : ((b.num ^ 2 * a.den : ℚ) : ℝ) ≤ ((a.num ^ 2 * b.den : ℚ) : ℝ) := by
            exact_mod_cast h
          push_cast at hcast
          nlinarith [hcast]
      · intro h
        right
        rw [hneg, mul_pow, mul_pow, hsqA, hsqB] at h
        have : (b.num : ℝ) ^ 2 * (a.den : ℝ) ≤ (a.num : ℝ) ^ 2 * (b.den : ℝ) := by nlinarith [h]
        exact_mod_cast this
  · push_neg at han
    by_cases hbn : 0 ≤ b.num
    · simp only [SimVal.le, if_neg (not_lt.2 han), decide_eq_true_eq, Bool.and_eq_true]
      rw [hiff]
      have hpos : (a.num : ℝ) * Real.sqrt (b.den : ℝ) ≤ (b.num : ℝ) * Real.sqrt (a.den : ℝ) ↔
          ((a.num : ℝ) * Real.sqrt (b.den : ℝ)) ^ 2 ≤ ((b.num : ℝ) * Real.sqrt (a.den : ℝ)) ^ 2 := by
        rw [sq_le_sq_iff_of_nonneg
          (mul_nonneg (by exact_mod_cast han) hB.le)
          (mul_nonneg (by exact_mod_cast hbn) hA.le)]
      constructor
      · rintro ⟨-, h⟩
        rw [hpos, mul_pow, mul_pow, hsqA, hsqB]
        have hc : ((a.num ^ 2 * b.den : ℚ) : ℝ) ≤ ((b.num ^ 2 * a.den : ℚ) : ℝ) := by
          exact_mod_cast h
        push_cast at hc
        nlinarith [hc]
      · intro h
        refine ⟨hbn, ?_⟩
        rw [hpos, mul_pow, mul_pow, hsqA, hsqB] at h
        have : (a.num : ℝ) ^ 2 * (b.den : ℝ) ≤ (b.num : ℝ) ^ 2 * (a.den : ℝ) := by nlinarith [h]
        exact_mod_cast this
    · push_neg at hbn
      simp only [SimVal.le, if_neg (not_lt.2 han), decide_eq_true_eq, Bool.and_eq_true]
      rw [hiff]
      constructor
      · rintro ⟨h, -⟩
        exact absurd h (not_le.2 hbn)
      · intro h
        exfalso
        have h1 : (0:ℝ) ≤ (a.num : ℝ) * Real.sqrt (b.den : ℝ) :=
          mul_nonneg (by exact_mod_cast han) hB.le
        have h2 : (b.num : ℝ) * Real.sqrt (a.den : ℝ) < 0 := by
          apply mul_neg_of_neg_of_pos _ hA
          exact_mod_cast hbn
        linarith

theorem SimVal.toReal_zero_one : SimVal.toReal ⟨0, 1⟩ = 0 := by
  unfold SimVal.toReal
  simp

/-! ## Data model -/

/-- One row of the movie catalog table `{movieId, title, genres}`. -/
structure Movie where
  movieId : Nat
  title : String
  genres : String
deriving DecidableEq

/-- One row of the ratings table `{userId, movieId, rating}`.  Rating values
are modelled as exact rationals. -/
structure RatingEvent where
  userId : Nat
  movieId : Nat
  rating : ℚ
deriving DecidableEq

/-- The single error the two recommenders raise (`ValueError` in the source,
`NotFound` in the spec's taxonomy). -/
inductive RecErr where
  | notFound
deriving DecidableEq

/-! ## Content model builder (`src/content_based.py`)

`_parse_genres` in the source:
```
if pd.isna(genre_str) or genre_str.strip() == "": return []
if genre_str == "(no genres listed)": return []
return genre_str.split("|")
```
The `pd.isna` branch concerns missing table cells, which the tabular model
excludes (every `Movie.genres` is a string).  `strip` and `split` are
implemented character by character so the definitions reduce. -/

/-- Python's `str.strip()`: drop whitespace from both ends. -/
def trimChars (cs : List Char) : List Char :=
  ((cs.dropWhile Char.isWhitespace).reverse.dropWhile Char.isWhitespace).reverse

/-- Python's `str.split("|")`. -/
def splitOnBar : List Char → List (List Char)
  | [] => [[]]
  | c :: cs =>
    if c = '|' then [] :: splitOnBar cs
    else
      match splitOnBar cs with
      | [] => [[c]]
      | h :: t => (c :: h) :: t

def parseGenres (s : String) : List String :=
  if trimChars s.toList = [] then []
  else if s = "(no genres listed)" then []
  else (splitOnBar s.toList).map String.mk

/-- Distinct genre tags of the movie at catalog index `i`; the multi-label
binarizer encodes each movie as the binary indicator vector of this set. -/
def genreTags (movies : List Movie) (i : Nat) : List String :=
  (parseGenres ((movies.getD i ⟨0, "", ""⟩).genres)).dedup

/-- Number of tags shared by the two (duplicate-free) tag lists: the dot
product of the corresponding binary genre vectors. -/
def interCount (a b : List String) : Nat := (a.filter (fun t => b.contains t)).length

/-- Entry `(i, j)` of the cosine-similarity index over binary genre vectors.
For binary vectors the dot product is the number of shared tags and each
squared norm is the number of tags, so the value is
`interCount a b / sqrt (|a| * |b|)`; a movie with no tags is the zero vector
and all its similarities are 0 (sklearn's `normalize` leaves a zero row
unscaled).  This function is meaningful only on catalogs satisfying
`contentBuildOk` below: on a catalog where NO movie has any tag the real
build raises instead of producing a matrix. -/
def contentSim (movies : List Movie) (i j : Nat) : SimVal :=
  let a := genreTags movies i
  let b := genreTags movies j
  if a.isEmpty || b.isEmpty then ⟨0, 1⟩
  else ⟨(interCount a b : ℚ), ((a.length * b.length : Nat) : ℚ)⟩

/-- Input validation of the real content-model build: `cosine_similarity`
(through `check_array` with `ensure_min_features=1`) raises `ValueError`
when the binarized feature matrix has zero columns, which happens exactly
when no movie in the catalog has any genre tag.  `fit_content_model`
therefore succeeds precisely on catalogs where some movie has a non-empty
tag sequence, and the similarity index exists only there. -/
def contentBuildOk (movies : List Movie) : Bool :=
  (List.range movies.length).any (fun i => !(genreTags movies i).isEmpty)

/-- `pd.Series(movies.index.values, index=movies["title"]).to_dict()`:
maps a title to the LAST catalog index bearing it (duplicate titles shadow
earlier ones). -/
def title_to_index (movies : List Movie) (t : String) : Option Nat :=
  ((List.range movies.length).filter
    (fun i => (movies.getD i ⟨0, "", ""⟩).title = t)).getLast?

/-- `fit_content_model`: the all-pairs similarity index together with the
title→index map. -/
def fit_content_model (movies : List Movie) :
    (Nat → Nat → SimVal) × (String → Option Nat) :=
  (contentSim movies, title_to_index movies)

/-! ## Content recommender (`recommend_by_title`) -/

/-- One output row `{rank, movieId, title, genres}` of `recommend_by_title`. -/
structure TitleRow where
  rank : Nat
  movieId : Nat
  title : String
  genres : String
deriving DecidableEq

/-- Attach 1-based ranks to a list of already-ordered payload rows
(models `df.insert(0, "rank", range(1, len(df)+1))`). -/
def withRanks {α β : Type} (f : Nat → α → β) (l : List α) : List β :=
  ((List.range l.length).zip l).map (fun p => f (p.1 + 1) p.2)

/-- The ranked rows of `recommend_by_title` for looked-up index `idx`:
argsort all catalog indices by descending similarity to `idx`, drop `idx`
itself, truncate to `top_n`, then read the movie columns back off the
catalog. -/
def titleRecRows (simIndex : Nat → Nat → SimVal) (movies : List Movie)
    (idx top_n : Nat) : List TitleRow :=
  let order := sortByLE (fun i j => SimVal.le (simIndex idx j) (simIndex idx i))
    (List.range movies.length)
  withRanks (fun r i =>
      let m := movies.getD i ⟨0, "", ""⟩
      ⟨r, m.movieId, m.title, m.genres⟩)
    ((order.filter (fun i => i != idx)).take top_n)

/-- `recommend_by_title(title, sim_index, title_to_index, movies_df, top_n)`. -/
def recommend_by_title (t : String) (simIndex : Nat → Nat → SimVal)
    (titleMap : String → Option Nat) (movies : List Movie) (top_n : Nat) :
    Except RecErr (List TitleRow) :=
  match titleMap t with
  | none => .error .notFound
  | some idx => .ok (titleRecRows simIndex movies idx top_n)

/-! ## CF model builder (`fit_cf_model` in `src/collaborative_filtering.py`)

`user_id_to_idx = {uid: i for i, uid in enumerate(sorted(user_ids))}`:
position `i` of `userIdsOf` (the ascending duplicate-free id list) is user
index `i`; likewise for movies.  The sparse matrix is kept as one association
list per user row, columns ascending. -/

def userIdsOf (ev : List RatingEvent) : List Nat := sortedUnique (ev.map (·.userId))

def movieIdsOf (ev : List RatingEvent) : List Nat := sortedUnique (ev.map (·.movieId))

/-- Stored value of the sparse matrix at ids `(uid, mid)`:
`csr_matrix((data, (rows, cols)))` sums duplicate coordinates. -/
def cellValue (ev : List RatingEvent) (uid mid : Nat) : ℚ :=
  ((ev.filter (fun e => e.userId == uid && e.movieId == mid)).map (·.rating)).sum

/-- Whether the sparse matrix stores an entry at ids `(uid, mid)`. -/
def cellPresent (ev : List RatingEvent) (uid mid : Nat) : Bool :=
  ev.any (fun e => e.userId == uid && e.movieId == mid)

/-- CSR row of user index `u`: `(column index, stored value)` pairs, columns
ascending, one pair per present cell. -/
def rawRow (ev : List RatingEvent) (u : Nat) : List (Nat × ℚ) :=
  let uid := (userIdsOf ev).getD u 0
  ((List.range (movieIdsOf ev).length).filter
      (fun i => cellPresent ev uid ((movieIdsOf ev).getD i 0))).map
    (fun i => (i, cellValue ev uid ((movieIdsOf ev).getD i 0)))

/-- `user_means = mat.sum(axis=1) / np.maximum(1, (mat != 0).sum(axis=1))`,
then `nan_to_num` (a no-op: the denominator is at least 1). -/
def userMean (ev : List RatingEvent) (u : Nat) : ℚ :=
  let vals := (rawRow ev u).map Prod.snd
  vals.sum / ((max 1 (vals.filter (fun q => decide (q ≠ 0))).length : Nat) : ℚ)

/-- The per-row mean-centering loop: `data[u] = [val - user_means[u] for val
in data[u]]` — only stored entries are rewritten, none are added or removed. -/
def centerRow (row : List (Nat × ℚ)) (m : ℚ) : List (Nat × ℚ) :=
  row.map (fun p => (p.1, p.2 - m))

/-- The CF bundle returned by `fit_cf_model`.  The id→index and index→id
mappings are both determined by the sorted id lists (index = list position). -/
structure CFBundle where
  userIds : List Nat
  movieIds : List Nat
  mat : List (List (Nat × ℚ))
  matCentered : List (List (Nat × ℚ))
  userMeans : List ℚ

def fit_cf_model (ev : List RatingEvent) : CFBundle :=
  let n := (userIdsOf ev).length
  { userIds := userIdsOf ev
    movieIds := movieIdsOf ev
    mat := (List.range n).map (rawRow ev)
    matCentered := (List.range n).map (fun u => centerRow (rawRow ev u) (userMean ev u))
    userMeans := (List.range n).map (userMean ev) }

/-! ## CF recommender (`recommend_for_user`) -/

/-- Lookup of a stored value in a CSR row (0 when the entry is absent —
exactly what `row.toarray()` materialises at absent coordinates). -/
def rowLookup (row : List (Nat × ℚ)) (i : Nat) : ℚ :=
  ((row.find? (fun p => p.1 == i)).map Prod.snd).getD 0

def rowHas (row : List (Nat × ℚ)) (i : Nat) : Bool :=
  (row.find? (fun p => p.1 == i)).isSome

/-- Sparse dot product of two CSR rows. -/
def rowDot (r s : List (Nat × ℚ)) : ℚ := (r.map (fun p => p.2 * rowLookup s p.1)).sum

/-- Cosine similarity of two CSR rows as an exact `SimVal`; sklearn's
zero-norm guard yields 0. -/
def cosineSim (r s : List (Nat × ℚ)) : SimVal :=
  if rowDot r r = 0 ∨ rowDot s s = 0 then ⟨0, 1⟩
  else ⟨rowDot r s, rowDot r r * rowDot s s⟩

/-- `sims_all`: cosine similarity of the target's centered row against every
user's centered row, with `sims_all[u_idx] = 0.0` (self excluded). -/
def simsAll (b : CFBundle) (uIdx v : Nat) : SimVal :=
  if v = uIdx then ⟨0, 1⟩
  else cosineSim (b.matCentered.getD uIdx []) (b.matCentered.getD v [])

/-- `neighbor_idx = np.argsort(-sims_all)[:k]`: all user indices sorted by
descending similarity (stable on ties), truncated to `k`. -/
def neighborIdx (b : CFBundle) (uIdx k : Nat) : List Nat :=
  (sortByLE (fun i j => SimVal.le (simsAll b uIdx j) (simsAll b uIdx i))
    (List.range b.userIds.length)).take k

/-- `rated_items = set(mat.getrow(u_idx).indices)`. -/
def ratedItems (b : CFBundle) (uIdx : Nat) : List Nat :=
  (b.mat.getD uIdx []).map Prod.fst

/-- `cand_items = (union of neighbors' stored items) - rated_items`, listed in
ascending item-index order (Python's set iteration order is unspecified; the
downstream stable sort makes the choice observable only through tie-breaks). -/
def candItems (b : CFBundle) (uIdx k : Nat) : List Nat :=
  (List.range b.movieIds.length).filter
    (fun i => !(ratedItems b uIdx).contains i
      && (neighborIdx b uIdx k).any (fun v => rowHas (b.mat.getD v []) i))

/-- `denom_eps = 1e-8`. -/
noncomputable def denomEps : ℝ := 1 / 100000000

/-- The neighbors whose stored rating column is `> 0` at item `i`
(`mask = col > 0` on the dense materialisation of the neighbors' column). -/
def contribNeighbors (b : CFBundle) (uIdx k i : Nat) : List Nat :=
  (neighborIdx b uIdx k).filter (fun v => decide (0 < rowLookup (b.mat.getD v []) i))

/-- Predicted rating for candidate item `i`, or `none` when the defensive
`if not np.any(mask): continue` skip fires:
`r_hat = mu_u + sum(sims * (r_vi - mu_v)) / (sum(|sims|) + denom_eps)`. -/
noncomputable def predFor (b : CFBundle) (uIdx k i : Nat) : Option ℝ :=
  let contrib := contribNeighbors b uIdx k i
  if contrib.isEmpty then none
  else some ((b.userMeans.getD uIdx 0 : ℝ)
    + (contrib.map (fun v => (simsAll b uIdx v).toReal
        * ((rowLookup (b.mat.getD v []) i - b.userMeans.getD v 0 : ℚ) : ℝ))).sum
      / ((contrib.map (fun v => |(simsAll b uIdx v).toReal|)).sum + denomEps))

/-- `preds`: `(item index, predicted rating)` pairs over the candidates, in
candidate order, skipped items omitted. -/
noncomputable def predsList (b : CFBundle) (uIdx k : Nat) : List (Nat × ℝ) :=
  (candItems b uIdx k).filterMap (fun i => (predFor b uIdx k i).map (fun r => (i, r)))

/-- One output row of the primary path:
`{rank, movieId, title, genres, predicted_rating}`. -/
structure PrimaryRow where
  rank : Nat
  movieId : Nat
  title : String
  genres : String
  predicted_rating : ℝ

/-- One output row of the popularity fallback:
`{rank, movieId, title, genres, predicted_rating, num_ratings}` — the shape
that carries the extra `num_ratings` column. -/
structure FallbackRow where
  rank : Nat
  movieId : Nat
  title : String
  genres : String
  predicted_rating : ℚ
  num_ratings : Nat
deriving DecidableEq

/-- `merge(movies_df, on="movieId", how="left")` for one key: the first
catalog row with this id (ids are unique in the data model); a missing id
yields pandas `NaN` columns, modelled as `""`. -/
def movieLookup (movies : List Movie) (mid : Nat) : Movie :=
  (movies.find? (fun m => m.movieId == mid)).getD ⟨mid, "", ""⟩

/-- `ratings_df.groupby("movieId")["rating"].agg(["count", ...])` for one id. -/
def ratingCount (ev : List RatingEvent) (m : Nat) : Nat :=
  (ev.filter (fun e => e.movieId == m)).length

/-- `...agg([..., "mean"])` for one id. -/
def ratingMean (ev : List RatingEvent) (m : Nat) : ℚ :=
  ((ev.filter (fun e => e.movieId == m)).map (·.rating)).sum / (ratingCount ev m : ℚ)

/-- `sort_values(["mean", "count"], ascending=[False, False])` key order. -/
def popLE (ev : List RatingEvent) (a b : Nat) : Bool :=
  if ratingMean ev a = ratingMean ev b then decide (ratingCount ev b ≤ ratingCount ev a)
  else decide (ratingMean ev b < ratingMean ev a)

/-- The popularity-fallback rows: group ratings by movie id (keys ascending,
as `groupby` sorts), keep ids with `count >= min_ratings_per_item`, sort by
(mean desc, count desc), truncate to `top_n`, join the catalog columns. -/
def fallbackRows (ev : List RatingEvent) (movies : List Movie)
    (top_n minR : Nat) : List FallbackRow :=
  let keys := (movieIdsOf ev).filter (fun m => decide (minR ≤ ratingCount ev m))
  withRanks (fun r m =>
      let mv := movieLookup movies m
      ⟨r, m, mv.title, mv.genres, ratingMean ev m, ratingCount ev m⟩)
    ((sortByLE (popLE ev) keys).take top_n)

/-- The primary-path rows: sort `preds` by predicted rating descending
(Python's stable `list.sort(..., reverse=True)`), truncate to `top_n`,
translate item indices back to movie ids and join the catalog columns. -/
noncomputable def primaryRows (b : CFBundle) (movies : List Movie)
    (uIdx top_n k : Nat) : List PrimaryRow :=
  withRanks (fun r p =>
      let mid := b.movieIds.getD p.1 0
      let mv := movieLookup movies mid
      ⟨r, mid, mv.title, mv.genres, p.2⟩)
    ((sortByLE (fun p q : Nat × ℝ => decide (q.2 ≤ p.2)) (predsList b uIdx k)).take top_n)

/-- The two output shapes of `recommend_for_user`: the primary frame (no
`num_ratings` column) and the fallback frame (with `num_ratings`). -/
inductive RecResult where
  | primary (rows : List PrimaryRow)
  | fallback (rows : List FallbackRow)

/-- The `movieId` column of either result shape. -/
def RecResult.movieIdList : RecResult → List Nat
  | .primary rows => rows.map (·.movieId)
  | .fallback rows => rows.map (·.movieId)

/-- Body of `recommend_for_user` once the target's row index is resolved. -/
noncomputable def recommendCore (b : CFBundle) (movies : List Movie)
    (ev : List RatingEvent) (uIdx top_n k minR : Nat) : Except RecErr RecResult :=
  if (candItems b uIdx k).isEmpty then
    .ok (.fallback (fallbackRows ev movies top_n minR))
  else if (predsList b uIdx k).isEmpty then
    .ok (.primary [])
  else
    .ok (.primary (primaryRows b movies uIdx top_n k))

/-- `recommend_for_user(user_id, cf_bundle, movies_df, ratings_df, top_n, k,
min_ratings_per_item)`. -/
noncomputable def recommend_for_user (userId : Nat) (b : CFBundle)
    (movies : List Movie) (ev : List RatingEvent) (top_n k minR : Nat) :
    Except RecErr RecResult :=
  match b.userIds.findIdx? (fun u => u == userId) with
  | none => .error .notFound
  | some uIdx => recommendCore b movies ev uIdx top_n k minR

/-! ## Bridge lemmas -/

theorem getD_map_range {α : Type} (f : Nat → α) (d : α) {u n : Nat} (h : u < n) :
    ((List.range n).map f).getD u d = f u := by
  simp [List.getD_eq_getElem?_getD, List.getElem?_map, List.getElem?_range, h]

theorem mem_withRanks {α β : Type} {f : Nat → α → β} {l : List α} {b : β}
    (h : b ∈ withRanks f l) : ∃ r a, a ∈ l ∧ b = f (r + 1) a := by
  rcases List.mem_map.1 h with ⟨p, hp, rfl⟩
  exact ⟨p.1, p.2, (List.of_mem_zip hp).2, rfl⟩

theorem length_withRanks {α β : Type} (f : Nat → α → β) (l : List α) :
    (withRanks f l).length = l.length := by
  simp [withRanks]

theorem mem_of_getLastQ {α : Type} {l : List α} {a : α} (h : l.getLast? = some a) :
    a ∈ l := by
  induction l with
  | nil => simp at h
  | cons x xs ih =>
    rcases xs with - | ⟨y, ys⟩
    · simp_all
    · rw [List.getLast?_cons_cons] at h
      exact List.mem_cons_of_mem _ (ih h)

theorem findIdxQ_eq_none_iff {l : List Nat} {x : Nat} :
    l.findIdx? (fun u => u == x) = none ↔ x ∉ l := by
  induction l with
  | nil => simp
  | cons a as ih =>
    rw [List.findIdx?_cons]
    by_cases h : a = x
    · subst h
      simp
    · simp [h, ih, Ne.symm h]

theorem findIdxQ_shift (p : Nat → Bool) (l : List Nat) :
    ∀ s : Nat, List.findIdx? p l s = (List.findIdx? p l).map (· + s) := by
  induction l with
  | nil => intro s; simp
  | cons a as ih =>
    intro s
    rw [List.findIdx?_cons, List.findIdx?_cons]
    by_cases h : p a = true
    · simp [h]
    · have hf : p a = false := by simpa using h
      rw [hf]
      simp only [cond_false, ih (s + 1), ih (0 + 1), Option.map_map]
      cases List.findIdx? p as with
      | none => simp
      | some j => simp [Function.comp]; omega

theorem findIdxQ_eq_some {l : List Nat} {x i : Nat}
    (h : l.findIdx? (fun u => u == x) = some i) : i < l.length ∧ l.getD i 0 = x := by
  induction l generalizing i with
  | nil => simp at h
  | cons a as ih =>
    rw [List.findIdx?_cons] at h
    by_cases hax : a = x
    · rw [if_pos (by simpa using hax)] at h
      cases h
      simpa using hax
    · rw [if_neg (by simpa using hax), findIdxQ_shift] at h
      rcases Option.map_eq_some'.1 h with ⟨j, hj, rfl⟩
      rcases ih hj with ⟨h1, h2⟩
      refine ⟨by simpa using Nat.add_lt_add_right h1 1, ?_⟩
      rw [show j + (0 + 1) = j + 1 by omega]
      simpa using h2

theorem fit_userIds (ev : List RatingEvent) :
    (fit_cf_model ev).userIds = userIdsOf ev := rfl

theorem fit_movieIds (ev : List RatingEvent) :
    (fit_cf_model ev).movieIds = movieIdsOf ev := rfl

theorem fit_mat_getD {ev : List RatingEvent} {u : Nat}
    (h : u < (userIdsOf ev).length) :
    (fit_cf_model ev).mat.getD u [] = rawRow ev u := by
  unfold fit_cf_model
  exact getD_map_range _ _ h

theorem fit_matCentered_getD {ev : List RatingEvent} {u : Nat}
    (h : u < (userIdsOf ev).length) :
    (fit_cf_model ev).matCentered.getD u [] = centerRow (rawRow ev u) (userMean ev u) := by
  unfold fit_cf_model
  exact getD_map_range _ _ h

theorem fit_userMeans_getD {ev : List RatingEvent} {u : Nat}
    (h : u < (userIdsOf ev).length) :
    (fit_cf_model ev).userMeans.getD u 0 = userMean ev u := by
  unfold fit_cf_model
  exact getD_map_range _ _ h

theorem find?_map_key {g : Nat → ℚ} {l : List Nat} {j : Nat} :
    (l.map (fun i => (i, g i))).find? (fun p => p.1 == j)
      = (l.find? (fun i => i == j)).map (fun i => (i, g i)) := by
  induction l with
  | nil => simp
  | cons a as ih =>
    by_cases h : a = j
    · subst h
      simp [List.find?_cons]
    · simp only [List.map_cons, List.find?_cons]
      have hb : (a == j) = false := by simpa using h
      simp [hb, ih]

theorem find?_id_eq {l : List Nat} {j : Nat} :
    l.find? (fun i => i == j) = if j ∈ l then some j else none := by
  induction l with
  | nil => simp
  | cons a as ih =>
    by_cases h : a = j
    · subst h
      simp [List.find?_cons]
    · have hb : (a == j) = false := by simpa using h
      simp only [List.find?_cons, hb, cond_false, ih, List.mem_cons]
      by_cases hj : j ∈ as
      · simp [hj, Ne.symm h]
      · simp [hj, Ne.symm h]

theorem find?_centerRow {r : List (Nat × ℚ)} {m : ℚ} {j : Nat} :
    (centerRow r m).find? (fun p => p.1 == j)
      = (r.find? (fun p => p.1 == j)).map (fun p => (p.1, p.2 - m)) := by
  induction r with
  | nil => simp [centerRow]
  | cons a as ih =>
    by_cases h : a.1 = j
    · simp [centerRow, List.find?_cons, h]
    · have hb : (a.1 == j) = false := by simpa using h
      simp only [centerRow, List.map_cons, List.find?_cons, hb, cond_false]
      exact ih

theorem rowHas_centerRow (r : List (Nat × ℚ)) (m : ℚ) (j : Nat) :
    rowHas (centerRow r m) j = rowHas r j := by
  unfold rowHas
  rw [find?_centerRow]
  cases r.find? (fun p => p.1 == j) <;> simp

theorem rowLookup_centerRow {r : List (Nat × ℚ)} {m : ℚ} {j : Nat}
    (h : rowHas r j = true) :
    rowLookup (centerRow r m) j = rowLookup r j - m := by
  unfold rowHas at h
  unfold rowLookup
  rw [find?_centerRow]
  rcases hfind : r.find? (fun p => p.1 == j) with - | p
  · rw [hfind] at h
    simp at h
  · rw [hfind]
    simp

/-- `rowHas` on a built CSR row, in terms of the event table. -/
theorem rowHas_rawRow {ev : List RatingEvent} {u j : Nat} :
    rowHas (rawRow ev u) j
      = (decide (j < (movieIdsOf ev).length)
        && cellPresent ev ((userIdsOf ev).getD u 0) ((movieIdsOf ev).getD j 0)) := by
  unfold rowHas rawRow
  rw [find?_map_key, find?_id_eq]
  by_cases hlt : j < (movieIdsOf ev).length
  · by_cases hp : cellPresent ev ((userIdsOf ev).getD u 0) ((movieIdsOf ev).getD j 0) = true
    · rw [if_pos (List.mem_filter.2 ⟨List.mem_range.2 hlt, hp⟩)]
      rw [hp]
      simp [hlt]
    · have hp2 : cellPresent ev ((userIdsOf ev).getD u 0) ((movieIdsOf ev).getD j 0) = false := by
        simpa using hp
      have hmem : j ∉ (List.range (movieIdsOf ev).length).filter
          (fun i => cellPresent ev ((userIdsOf ev).getD u 0) ((movieIdsOf ev).getD i 0)) :=
        fun hmem => hp (List.mem_filter.1 hmem).2
      rw [if_neg hmem, hp2]
      simp
  · have hmem : j ∉ (List.range (movieIdsOf ev).length).filter
        (fun i => cellPresent ev ((userIdsOf ev).getD u 0) ((movieIdsOf ev).getD i 0)) :=
      fun hmem => hlt (List.mem_range.1 (List.mem_filter.1 hmem).1)
    rw [if_neg hmem]
    simp [hlt]

/-- `rowLookup` on a built CSR row of a present cell is the stored value. -/
theorem rowLookup_rawRow {ev : List RatingEvent} {u j : Nat}
    (hj : j < (movieIdsOf ev).length)
    (hp : cellPresent ev ((userIdsOf ev).getD u 0) ((movieIdsOf ev).getD j 0) = true) :
    rowLookup (rawRow ev u) j
      = cellValue ev ((userIdsOf ev).getD u 0) ((movieIdsOf ev).getD j 0) := by
  unfold rowLookup rawRow
  rw [find?_map_key, find?_id_eq,
    if_pos (List.mem_filter.2 ⟨List.mem_range.2 hj, hp⟩)]
  rfl

/-- With strictly positive rating values every stored cell holds a strictly
positive value (stored values are sums of one or more event ratings). -/
theorem cellValue_pos {ev : List RatingEvent} {uid mid : Nat}
    (hpos : ∀ e ∈ ev, 0 < e.rating) (hp : cellPresent ev uid mid = true) :
    0 < cellValue ev uid mid := by
  unfold cellValue
  apply List.sum_pos
  · intro q hq
    rcases List.mem_map.1 hq with ⟨e, he, rfl⟩
    exact hpos e (List.mem_filter.1 he).1
  · rcases List.any_eq_true.1 hp with ⟨e, he, hcond⟩
    intro hnil
    have : e.rating ∈ ((ev.filter
        (fun e => e.userId == uid && e.movieId == mid)).map (·.rating)) :=
      List.mem_map.2 ⟨e, List.mem_filter.2 ⟨he, hcond⟩, rfl⟩
    rw [hnil] at this
    simp at this

theorem mem_neighborIdx_lt {b : CFBundle} {uIdx k v : Nat}
    (h : v ∈ neighborIdx b uIdx k) : v < b.userIds.length := by
  unfold neighborIdx at h
  exact List.mem_range.1 (mem_sortByLE.1 (List.take_subset _ _ h))

theorem mem_candItems {b : CFBundle} {uIdx k i : Nat} :
    i ∈ candItems b uIdx k
      ↔ i < b.movieIds.length ∧ i ∉ ratedItems b uIdx
        ∧ ∃ v ∈ neighborIdx b uIdx k, rowHas (b.mat.getD v []) i = true := by
  unfold candItems
  simp only [List.mem_filter, List.mem_range, Bool.and_eq_true, Bool.not_eq_true',
    List.any_eq_true]
  constructor
  · rintro ⟨hr, hnot, hany⟩
    refine ⟨hr, ?_, hany⟩
    intro hmem
    exact absurd hmem (by simpa using hnot)
  · rintro ⟨hr, hnot, hany⟩
    refine ⟨hr, ?_, hany⟩
    simpa using hnot

theorem recommendCore_isOk (b : CFBundle) (movies : List Movie)
    (ev : List RatingEvent) (uIdx top_n k minR : Nat) :
    ∃ r, recommendCore b movies ev uIdx top_n k minR = .ok r := by
  unfold recommendCore
  by_cases h1 : (candItems b uIdx k).isEmpty = true
  · exact ⟨_, by rw [if_pos h1]⟩
  · by_cases h2 : (predsList b uIdx k).isEmpty = true
    · exact ⟨_, by rw [if_neg h1, if_pos h2]⟩
    · exact ⟨_, by rw [if_neg h1, if_neg h2]⟩

/-! ## Example data used by witnesses and counterexamples -/

/-- Two users: user 1 rated movies 10 and 20, user 2 rated movies 10 and 30. -/
def evA : List RatingEvent := [⟨1, 10, 5⟩, ⟨1, 20, 3⟩, ⟨2, 10, 4⟩, ⟨2, 30, 2⟩]

def moviesA : List Movie := [⟨10, "A", "X"⟩, ⟨20, "B", "Y"⟩, ⟨30, "C", "Z"⟩]

/-- Five users who all rated exactly the single movie 10 (rating 4). -/
def evB : List RatingEvent :=
  [⟨1, 10, 4⟩, ⟨2, 10, 4⟩, ⟨3, 10, 4⟩, ⟨4, 10, 4⟩, ⟨5, 10, 4⟩]

def moviesB : List Movie := [⟨10, "M", "Action"⟩]

/-! ## Claim C6 -/

/-- C6: `fit_cf_model` assigns 0-based indices to users and to items in
ascending sorted id order (strictly increasing id along positions, so row 0 is
the smallest user id), the id→index maps cover exactly the ids occurring in
the rating events, and rebuilding from the same event list yields the
identical bundle. -/
theorem claimC6_sorted_deterministic (ev : List RatingEvent) :
    (∀ i j (hi : i < (fit_cf_model ev).userIds.length)
        (hj : j < (fit_cf_model ev).userIds.length), i < j →
        (fit_cf_model ev).userIds.get ⟨i, hi⟩ < (fit_cf_model ev).userIds.get ⟨j, hj⟩) ∧
    (∀ i j (hi : i < (fit_cf_model ev).movieIds.length)
        (hj : j < (fit_cf_model ev).movieIds.length), i < j →
        (fit_cf_model ev).movieIds.get ⟨i, hi⟩ < (fit_cf_model ev).movieIds.get ⟨j, hj⟩) ∧
    (∀ uid, uid ∈ (fit_cf_model ev).userIds ↔ ∃ e ∈ ev, e.userId = uid) ∧
    (∀ mid, mid ∈ (fit_cf_model ev).movieIds ↔ ∃ e ∈ ev, e.movieId = mid) ∧
    (∀ ev2, ev = ev2 → fit_cf_model ev = fit_cf_model ev2) := by
  refine ⟨?_, ?_, ?_, ?_, ?_⟩
  · intro i j hi hj hij
    exact List.pairwise_iff_get.1 (pairwise_sortedUnique _) ⟨i, hi⟩ ⟨j, hj⟩ hij
  · intro i j hi hj hij
    exact List.pairwise_iff_get.1 (pairwise_sortedUnique _) ⟨i, hi⟩ ⟨j, hj⟩ hij
  · intro uid
    rw [fit_userIds]
    unfold userIdsOf
    rw [mem_sortedUnique, List.mem_map]
  · intro mid
    rw [fit_movieIds]
    unfold movieIdsOf
    rw [mem_sortedUnique, List.mem_map]
  · rintro ev2 rfl
    rfl

theorem claimC6_witness :
    (0 : Nat) < 1 ∧
    (fit_cf_model evA).userIds.get ⟨0, by decide⟩
      < (fit_cf_model evA).userIds.get ⟨1, by decide⟩ :=
  ⟨by decide, (claimC6_sorted_deterministic evA).1 0 1 (by decide) (by decide) (by decide)⟩

/-! ## Claim C8 -/

/-- C8: `recommend_by_title` yields the NotFound error exactly when the
queried title is absent from the title→index map built by
`fit_content_model`, and `recommend_for_user` yields it exactly when the
target user id is absent from the bundle's user-id list; on present inputs
both operations return an ok result. -/
theorem claimC8_notFound_iff (movies : List Movie) (ev : List RatingEvent)
    (t : String) (uid n top_n k minR : Nat) :
    ((recommend_by_title t (fit_content_model movies).1 (fit_content_model movies).2 movies n
        = .error .notFound) ↔ (fit_content_model movies).2 t = none) ∧
    ((∃ rows, recommend_by_title t (fit_content_model movies).1 (fit_content_model movies).2 movies n
        = .ok rows) ↔ (fit_content_model movies).2 t ≠ none) ∧
    ((recommend_for_user uid (fit_cf_model ev) movies ev top_n k minR
        = .error .notFound) ↔ uid ∉ (fit_cf_model ev).userIds) ∧
    ((∃ r, recommend_for_user uid (fit_cf_model ev) movies ev top_n k minR = .ok r)
      ↔ uid ∈ (fit_cf_model ev).userIds) := by
  have hrbt : ∀ o : Option Nat, (fit_content_model movies).2 t = o →
      recommend_by_title t (fit_content_model movies).1 (fit_content_model movies).2 movies n
        = (match o with
          | none => .error .notFound
          | some idx => .ok (titleRecRows (fit_content_model movies).1 movies idx n)) := by
    intro o ho
    unfold recommend_by_title
    rw [ho]
  have hrfu : ∀ o : Option Nat, (fit_cf_model ev).userIds.findIdx? (fun u => u == uid) = o →
      recommend_for_user uid (fit_cf_model ev) movies ev top_n k minR
        = (match o with
          | none => .error .notFound
          | some uIdx => recommendCore (fit_cf_model ev) movies ev uIdx top_n k minR) := by
    intro o ho
    unfold recommend_for_user
    rw [ho]
  refine ⟨?_, ?_, ?_, ?_⟩
  · rcases ho : (fit_content_model movies).2 t with - | idx
    · simp [hrbt none ho]
    · simp [hrbt (some idx) ho, ho]
  · rcases ho : (fit_content_model movies).2 t with - | idx
    · simp [hrbt none ho]
    · simp [hrbt (some idx) ho, ho]
  · rcases ho : (fit_cf_model ev).userIds.findIdx? (fun u => u == uid) with - | uIdx
    · simp [hrfu none ho, findIdxQ_eq_none_iff.1 ho]
    · rcases recommendCore_isOk (fit_cf_model ev) movies ev uIdx top_n k minR with ⟨r, hr⟩
      have hmem : uid ∈ (fit_cf_model ev).userIds := by
        by_contra hmm
        rw [findIdxQ_eq_none_iff.2 hmm] at ho
        cases ho
      simp [hrfu (some uIdx) ho, hr, hmem]
  · rcases ho : (fit_cf_model ev).userIds.findIdx? (fun u => u == uid) with - | uIdx
    · simp [hrfu none ho, findIdxQ_eq_none_iff.1 ho]
    · rcases recommendCore_isOk (fit_cf_model ev) movies ev uIdx top_n k minR with ⟨r, hr⟩
      have hmem : uid ∈ (fit_cf_model ev).userIds := by
        by_contra hmm
        rw [findIdxQ_eq_none_iff.2 hmm] at ho
        cases ho
      simp [hrfu (some uIdx) ho, hr, hmem]

/-! ## Claim C3 -/

/-- C3: once the target user resolves to row `uIdx`, `recommend_for_user`
returns the popularity-fallback shape (the one carrying `num_ratings`)
exactly when the candidate set — the union of the k neighbors' rated items
minus the target's rated items — is empty, and the primary shape (no
`num_ratings` column) in every other case. -/
theorem claimC3_shape_switch (ev : List RatingEvent) (movies : List Movie)
    (uid top_n k minR uIdx : Nat)
    (hfind : (fit_cf_model ev).userIds.findIdx? (fun u => u == uid) = some uIdx) :
    ((∃ rows, recommend_for_user uid (fit_cf_model ev) movies ev top_n k minR
        = .ok (.fallback rows)) ↔ candItems (fit_cf_model ev) uIdx k = []) ∧
    ((∃ rows, recommend_for_user uid (fit_cf_model ev) movies ev top_n k minR
        = .ok (.primary rows)) ↔ candItems (fit_cf_model ev) uIdx k ≠ []) := by
  have hred : recommend_for_user uid (fit_cf_model ev) movies ev top_n k minR
      = recommendCore (fit_cf_model ev) movies ev uIdx top_n k minR := by
    unfold recommend_for_user
    rw [hfind]
  rw [hred]
  unfold recommendCore
  by_cases h1 : (candItems (fit_cf_model ev) uIdx k).isEmpty = true
  · rw [if_pos h1]
    have hnil : candItems (fit_cf_model ev) uIdx k = [] := List.isEmpty_iff.1 h1
    constructor
    · simp [hnil]
    · simp [hnil]
  · have hnotnil : candItems (fit_cf_model ev) uIdx k ≠ [] := by
      intro hc
      exact h1 (List.isEmpty_iff.2 hc)
    rw [if_neg h1]
    by_cases h2 : (predsList (fit_cf_model ev) uIdx k).isEmpty = true
    · rw [if_pos h2]
      constructor
      · simp [hnotnil]
      · simp [hnotnil]
    · rw [if_neg h2]
      constructor
      · simp [hnotnil]
      · simp [hnotnil]

theorem claimC3_witness :
    (fit_cf_model evA).userIds.findIdx? (fun u => u == 1) = some 0 ∧
    ((∃ rows, recommend_for_user 1 (fit_cf_model evA) moviesA evA 10 40 5
        = .ok (.fallback rows)) ↔ candItems (fit_cf_model evA) 0 40 = []) :=
  ⟨by decide, (claimC3_shape_switch evA moviesA 1 10 40 5 0 (by decide)).1⟩

/-! ## Claim C5 -/

/-- Every pair stored in a built CSR row is a present cell with its summed
value. -/
theorem mem_rawRow {ev : List RatingEvent} {u : Nat} {p : Nat × ℚ}
    (hp : p ∈ rawRow ev u) :
    p.1 < (movieIdsOf ev).length
      ∧ cellPresent ev ((userIdsOf ev).getD u 0) ((movieIdsOf ev).getD p.1 0) = true
      ∧ p.2 = cellValue ev ((userIdsOf ev).getD u 0) ((movieIdsOf ev).getD p.1 0) := by
  unfold rawRow at hp
  rcases List.mem_map.1 hp with ⟨i, hi, rfl⟩
  rcases List.mem_filter.1 hi with ⟨hr, hpres⟩
  exact ⟨List.mem_range.1 hr, hpres, rfl⟩

/-- C5: with the domain's strictly positive rating values, each user's mean
in the CF bundle is the arithmetic mean over only that user's present
entries (and 0 for a row with no present entries), and the mean-centered
matrix has exactly the raw matrix's present entries, each equal to the raw
value minus that user's mean — absent entries never become `0 - mean`. -/
theorem claimC5_means_centering (ev : List RatingEvent)
    (hpos : ∀ e ∈ ev, 0 < e.rating) :
    ∀ u, u < (fit_cf_model ev).userIds.length →
      (((fit_cf_model ev).mat.getD u [] = [] → (fit_cf_model ev).userMeans.getD u 0 = 0) ∧
       ((fit_cf_model ev).mat.getD u [] ≠ [] →
         (fit_cf_model ev).userMeans.getD u 0
           = (((fit_cf_model ev).mat.getD u []).map Prod.snd).sum
             / ((((fit_cf_model ev).mat.getD u []).length : Nat) : ℚ)) ∧
       (∀ i, rowHas ((fit_cf_model ev).matCentered.getD u []) i
           = rowHas ((fit_cf_model ev).mat.getD u []) i) ∧
       (∀ i, rowHas ((fit_cf_model ev).mat.getD u []) i = true →
         rowLookup ((fit_cf_model ev).matCentered.getD u []) i
           = rowLookup ((fit_cf_model ev).mat.getD u []) i
             - (fit_cf_model ev).userMeans.getD u 0)) := by
  intro u hu
  have hu2 : u < (userIdsOf ev).length := hu
  rw [fit_mat_getD hu2, fit_matCentered_getD hu2, fit_userMeans_getD hu2]
  have hvalpos : ∀ q ∈ (rawRow ev u).map Prod.snd, 0 < q := by
    intro q hq
    rcases List.mem_map.1 hq with ⟨p, hp, rfl⟩
    rcases mem_rawRow hp with ⟨-, hpres, hval⟩
    rw [hval]
    exact cellValue_pos hpos hpres
  refine ⟨?_, ?_, ?_, ?_⟩
  · intro hnil
    unfold userMean
    rw [hnil]
    simp
  · intro hnotnil
    unfold userMean
    have hfilter : ((rawRow ev u).map Prod.snd).filter (fun q => decide (q ≠ 0))
        = (rawRow ev u).map Prod.snd := by
      apply List.filter_eq_self.2
      intro q hq
      simpa using ne_of_gt (hvalpos q hq)
    have hlen : 1 ≤ (rawRow ev u).length := by
      rcases hq : rawRow ev u with - | ⟨v, vs⟩
      · exact absurd hq hnotnil
      · simp
    simp only [hfilter, List.length_map]
    rw [sup_eq_right.2 hlen]
  · intro i
    exact rowHas_centerRow (rawRow ev u) (userMean ev u) i
  · intro i hhas
    exact rowLookup_centerRow hhas

theorem claimC5_witness :
    (∀ e ∈ evA, 0 < e.rating) ∧ (0 < (fit_cf_model evA).userIds.length) ∧
    (∀ i, rowHas ((fit_cf_model evA).matCentered.getD 0 []) i
        = rowHas ((fit_cf_model evA).mat.getD 0 []) i) :=
  ⟨by decide, by decide,
    ((claimC5_means_centering evA (by decide) 0 (by decide)).2.2.1)⟩

/-! ## Claim C4 -/

theorem interCount_self (a : List String) : interCount a a = a.length := by
  unfold interCount
  rw [List.filter_eq_self.2]
  intro t ht
  simpa using ht

/-- C4 counterexample: take the two-movie catalog with one "Action" movie and
one movie carrying the sentinel "(no genres listed)".  The real build
succeeds here (the feature matrix has one column, so sklearn's
`ensure_min_features=1` check passes and the tagless movie is the zero ROW),
the second movie's genre tag sequence is empty, and the similarity matrix's
diagonal entry at its index is 0, not 1. -/
theorem claimC4_counterexample :
    contentBuildOk [⟨1, "A", "Action"⟩, ⟨2, "B", "(no genres listed)"⟩] = true ∧
    genreTags [⟨1, "A", "Action"⟩, ⟨2, "B", "(no genres listed)"⟩] 1 = [] ∧
    ((fit_content_model [⟨1, "A", "Action"⟩, ⟨2, "B", "(no genres listed)"⟩]).1 1 1).toReal
      ≠ 1 := by
  refine ⟨by decide, by decide, ?_⟩
  have h : (fit_content_model [⟨1, "A", "Action"⟩, ⟨2, "B", "(no genres listed)"⟩]).1 1 1
      = ⟨0, 1⟩ := by
    show contentSim [⟨1, "A", "Action"⟩, ⟨2, "B", "(no genres listed)"⟩] 1 1 = ⟨0, 1⟩
    simp only [contentSim]
    rw [if_pos]
    decide
  rw [h, SimVal.toReal_zero_one]
  norm_num

/-- C4 (amended): for every catalog on which the content-model build succeeds
(some movie has a genre tag, `contentBuildOk`) and every movie in it, the
diagonal entry of the content similarity matrix at the movie's index is 1
whenever the movie's genre tag sequence is non-empty; for a movie with an
empty tag sequence (empty or sentinel genre string) the diagonal entry is 0.
On an all-tagless catalog the build itself raises, so no matrix exists. -/
theorem claimC4_diagonal (movies : List Movie) (i : Nat) (hi : i < movies.length)
    (hbuild : contentBuildOk movies = true) :
    (genreTags movies i ≠ [] → ((fit_content_model movies).1 i i).toReal = 1) ∧
    (genreTags movies i = [] → ((fit_content_model movies).1 i i).toReal = 0) := by
  constructor
  · intro hne
    have hsim : (fit_content_model movies).1 i i
        = ⟨((genreTags movies i).length : ℚ),
           (((genreTags movies i).length * (genreTags movies i).length : Nat) : ℚ)⟩ := by
      show contentSim movies i i = _
      simp only [contentSim]
      rw [if_neg, interCount_self]
      simp [List.isEmpty_iff, hne]
    rw [hsim]
    unfold SimVal.toReal
    have hn : (0:ℝ) < ((genreTags movies i).length : ℝ) := by
      exact_mod_cast List.length_pos.2 hne
    push_cast
    rw [Real.sqrt_mul_self hn.le]
    exact div_self (ne_of_gt hn)
  · intro hnil
    have hsim : (fit_content_model movies).1 i i = ⟨0, 1⟩ := by
      show contentSim movies i i = _
      simp only [contentSim]
      rw [if_pos]
      simp [List.isEmpty_iff, hnil]
    rw [hsim, SimVal.toReal_zero_one]

theorem claimC4_witness :
    (0 < moviesB.length) ∧ contentBuildOk moviesB = true ∧ genreTags moviesB 0 ≠ [] ∧
    ((fit_content_model moviesB).1 0 0).toReal = 1 :=
  ⟨by decide, by decide, by decide,
    (claimC4_diagonal moviesB 0 (by decide) (by decide)).1 (by decide)⟩

/-! ## Claim C7 -/

theorem getD_mem_of_lt {α : Type} {l : List α} {n : Nat} {d : α} (h : n < l.length) :
    l.getD n d ∈ l := by
  rw [List.getD_eq_getElem?_getD, List.getElem?_eq_getElem h]
  simp

theorem two_le_countP {α : Type} {p : α → Bool} {d : α} :
    ∀ {l : List α} {i j : Nat}, i < j → j < l.length →
      p (l.getD i d) = true → p (l.getD j d) = true → 2 ≤ l.countP p := by
  intro l
  induction l with
  | nil =>
    intro i j hij hj hpi hpj
    simp at hj
  | cons a as ih =>
    intro i j hij hj hpi hpj
    rcases j with - | j2
    · omega
    · have hj2 : j2 < as.length := by simpa using hj
      have hpj2 : p (as.getD j2 d) = true := by simpa using hpj
      rcases i with - | i2
      · have hpa : p a = true := by simpa using hpi
        rw [List.countP_cons, if_pos hpa]
        have h1 : 0 < as.countP p :=
          List.countP_pos.2 ⟨as.getD j2 d, getD_mem_of_lt hj2, hpj2⟩
        omega
      · have hpi2 : p (as.getD i2 d) = true := by simpa using hpi
        have h2 : 2 ≤ as.countP p := ih (by omega) hj2 hpi2 hpj2
        rw [List.countP_cons]
        have h3 : as.countP p ≤ as.countP p + (if p a then 1 else 0) := Nat.le_add_right _ _
        omega

theorem title_to_index_spec {movies : List Movie} {t : String} {idx : Nat}
    (h : title_to_index movies t = some idx) :
    idx < movies.length ∧ (movies.getD idx ⟨0, "", ""⟩).title = t := by
  unfold title_to_index at h
  have hmem := mem_of_getLastQ h
  rcases List.mem_filter.1 hmem with ⟨hr, hp⟩
  exact ⟨List.mem_range.1 hr, by simpa using hp⟩

theorem mem_titleRecRows {simIndex : Nat → Nat → SimVal} {movies : List Movie}
    {idx top_n : Nat} {r : TitleRow} (h : r ∈ titleRecRows simIndex movies idx top_n) :
    ∃ j, j < movies.length ∧ j ≠ idx ∧ r.title = (movies.getD j ⟨0, "", ""⟩).title := by
  simp only [titleRecRows] at h
  rcases mem_withRanks h with ⟨rank, j, hj, rfl⟩
  have hj2 := List.take_subset _ _ hj
  rcases List.mem_filter.1 hj2 with ⟨horder, hne⟩
  exact ⟨j, List.mem_range.1 (mem_sortByLE.1 horder), by simpa using hne, rfl⟩

/-- C7 (amended): `recommend_by_title` never returns the catalog row at the
index the queried title resolves to; hence when at most one catalog row bears
the queried title, the result never contains the queried title.  (With
duplicate titles the queried title can still appear, coming from one of the
shadowed rows — see `claimC7_counterexample`.) -/
theorem claimC7_no_self_title (movies : List Movie) (t : String) (idx top_n : Nat)
    (hidx : title_to_index movies t = some idx)
    (huniq : movies.countP (fun m => m.title == t) ≤ 1) :
    recommend_by_title t (fit_content_model movies).1 (fit_content_model movies).2 movies top_n
      = .ok (titleRecRows (fit_content_model movies).1 movies idx top_n) ∧
    ∀ r ∈ titleRecRows (fit_content_model movies).1 movies idx top_n, r.title ≠ t := by
  constructor
  · unfold recommend_by_title
    have h2 : (fit_content_model movies).2 t = some idx := hidx
    rw [h2]
  · intro r hr ht
    rcases mem_titleRecRows hr with ⟨j, hjlen, hjne, hjt⟩
    rcases title_to_index_spec hidx with ⟨hilen, hit⟩
    have hpj : (fun m : Movie => m.title == t) (movies.getD j ⟨0, "", ""⟩) = true := by
      have : (movies.getD j ⟨0, "", ""⟩).title = t := by rw [← hjt]; exact ht
      simpa using this
    have hpi : (fun m : Movie => m.title == t) (movies.getD idx ⟨0, "", ""⟩) = true := by
      simpa using hit
    rcases Nat.lt_or_ge j idx with hlt | hge
    · have h2c : 2 ≤ movies.countP (fun m => m.title == t) :=
        two_le_countP hlt hilen hpj hpi
      omega
    · have hlt2 : idx < j := by omega
      have h2c : 2 ≤ movies.countP (fun m => m.title == t) :=
        two_le_countP hlt2 hjlen hpi hpj
      omega

/-- Catalog with a duplicated title: the lookup keeps the last index. -/
def moviesDup : List Movie := [⟨1, "A", "Action"⟩, ⟨2, "A", "Action"⟩]

/-- C7 counterexample: on a catalog with two movies both titled "A",
recommending by title "A" returns the shadowed first row, whose title is the
queried title itself — the claim fails on catalogs with duplicate titles. -/
theorem claimC7_counterexample :
    ∃ rows, recommend_by_title "A" (fit_content_model moviesDup).1
        (fit_content_model moviesDup).2 moviesDup 10 = .ok rows
      ∧ "A" ∈ rows.map TitleRow.title := by
  have hfst : (fit_content_model moviesDup).1 = contentSim moviesDup := rfl
  have hg0 : genreTags moviesDup 0 = ["Action"] := by decide
  have hg1 : genreTags moviesDup 1 = ["Action"] := by decide
  have h10 : contentSim moviesDup 1 0 = ⟨1, 1⟩ := by
    simp only [contentSim, hg0, hg1]
    rw [if_neg (by decide), show interCount ["Action"] ["Action"] = 1 from by decide]
    norm_num
  have h11 : contentSim moviesDup 1 1 = ⟨1, 1⟩ := by
    simp only [contentSim, hg1]
    rw [if_neg (by decide), show interCount ["Action"] ["Action"] = 1 from by decide]
    norm_num
  have hle : SimVal.le (contentSim moviesDup 1 1) (contentSim moviesDup 1 0) = true := by
    rw [h10, h11]
    norm_num [SimVal.le]
  have hmap : (fit_content_model moviesDup).2 "A" = some 1 := by decide
  refine ⟨titleRecRows (fit_content_model moviesDup).1 moviesDup 1 10, ?_, ?_⟩
  · unfold recommend_by_title
    rw [hmap]
  · have horder : sortByLE
        (fun i j => SimVal.le ((fit_content_model moviesDup).1 1 j)
          ((fit_content_model moviesDup).1 1 i))
        (List.range moviesDup.length) = [0, 1] := by
      rw [show List.range moviesDup.length = [0, 1] from by decide, hfst]
      simp [sortByLE, insertLE, hle]
    simp only [titleRecRows, horder]
    rw [show ([0, 1].filter (fun i => i != 1)).take 10 = [0] from by decide]
    decide

theorem claimC7_witness :
    title_to_index moviesA "A" = some 0 ∧
    moviesA.countP (fun m => m.title == "A") ≤ 1 ∧
    ∀ r ∈ titleRecRows (fit_content_model moviesA).1 moviesA 0 2, r.title ≠ "A" :=
  ⟨by decide, by decide,
    (claimC7_no_self_title moviesA "A" 0 2 (by decide) (by decide)).2⟩

/-! ## Claim C1 -/

theorem getD_eq_getElem_of_lt {α : Type} {l : List α} {n : Nat} {d : α}
    (h : n < l.length) : l.getD n d = l[n] := by
  rw [List.getD_eq_getElem?_getD, List.getElem?_eq_getElem h]
  rfl

theorem rowHas_iff_mem_fst {row : List (Nat × ℚ)} {j : Nat} :
    rowHas row j = true ↔ j ∈ row.map Prod.fst := by
  unfold rowHas
  rw [List.find?_isSome]
  constructor
  · rintro ⟨p, hp, hpj⟩
    exact List.mem_map.2 ⟨p, hp, by simpa using beq_iff_eq.1 hpj⟩
  · intro hj
    rcases List.mem_map.1 hj with ⟨p, hp, rfl⟩
    exact ⟨p, hp, by simp⟩

/-- Strictly ascending id lists make index lookup injective. -/
theorem sortedUnique_getD_inj {l : List Nat} {i j : Nat}
    (hsorted : l.Pairwise (· < ·)) (hi : i < l.length) (hj : j < l.length)
    (heq : l.getD i 0 = l.getD j 0) : i = j := by
  rw [getD_eq_getElem_of_lt hi, getD_eq_getElem_of_lt hj] at heq
  by_contra hne
  rcases Nat.lt_or_ge i j with hlt | hge
  · have := List.pairwise_iff_getElem.1 hsorted i j hi hj hlt
    omega
  · have hlt2 : j < i := by omega
    have := List.pairwise_iff_getElem.1 hsorted j i hj hi hlt2
    omega

theorem movieIdsOf_getD_inj {ev : List RatingEvent} {i j : Nat}
    (hi : i < (movieIdsOf ev).length) (hj : j < (movieIdsOf ev).length)
    (heq : (movieIdsOf ev).getD i 0 = (movieIdsOf ev).getD j 0) : i = j :=
  sortedUnique_getD_inj (pairwise_sortedUnique _) hi hj heq

/-- Core of claim C1: a primary-path row's movie id is never one the target
user has a rating event for. -/
theorem primaryRows_not_rated {ev : List RatingEvent} {movies : List Movie}
    {uid top_n k uIdx : Nat}
    (hfind : (fit_cf_model ev).userIds.findIdx? (fun u => u == uid) = some uIdx) :
    ∀ r ∈ primaryRows (fit_cf_model ev) movies uIdx top_n k,
      ¬ ∃ e ∈ ev, e.userId = uid ∧ e.movieId = r.movieId := by
  intro r hr ⟨e, he, heu, hem⟩
  rcases findIdxQ_eq_some hfind with ⟨huIdx, huid⟩
  simp only [primaryRows] at hr
  rcases mem_withRanks hr with ⟨rank, p, hp, rfl⟩
  have hp2 : p ∈ predsList (fit_cf_model ev) uIdx k :=
    mem_sortByLE.1 (List.take_subset _ _ hp)
  rcases List.mem_filterMap.1 hp2 with ⟨i, hi, hmap⟩
  rcases Option.map_eq_some'.1 hmap with ⟨val, hval, hpair⟩
  have hpi : p.1 = i := by rw [← hpair]
  rcases mem_candItems.1 hi with ⟨hilt, hirated, -⟩
  -- the movie id of the row is the id at candidate index i
  have hmid : (fit_cf_model ev).movieIds.getD p.1 0 = e.movieId := hem.symm
  rw [hpi] at hmid
  -- e.movieId occurs in the sorted movie-id list, at some index j
  have hmem : e.movieId ∈ movieIdsOf ev :=
    mem_sortedUnique.2 (List.mem_map.2 ⟨e, he, rfl⟩)
  rcases List.mem_iff_getElem.1 hmem with ⟨j, hjlt, hj⟩
  have hjD : (movieIdsOf ev).getD j 0 = e.movieId := by
    rw [getD_eq_getElem_of_lt hjlt]
    exact hj
  -- the target has a stored entry at column j
  have hpres : cellPresent ev ((userIdsOf ev).getD uIdx 0) ((movieIdsOf ev).getD j 0) = true := by
    apply List.any_eq_true.2
    refine ⟨e, he, ?_⟩
    rw [hjD]
    have huid2 : (userIdsOf ev).getD uIdx 0 = uid := huid
    rw [huid2, heu]
    simp
  have hhas : rowHas (rawRow ev uIdx) j = true := by
    rw [rowHas_rawRow, hpres]
    simp [hjlt]
  have hjrated : j ∈ ratedItems (fit_cf_model ev) uIdx := by
    unfold ratedItems
    rw [fit_mat_getD huIdx]
    exact rowHas_iff_mem_fst.1 hhas
  -- candidate index i equals j since movie ids are strictly sorted
  have hilt2 : i < (movieIdsOf ev).length := hilt
  have hmid2 : (movieIdsOf ev).getD i 0 = e.movieId := hmid
  have hij : i = j := movieIdsOf_getD_inj hilt2 hjlt (by rw [hmid2, hjD])
  rw [← hij] at hjrated
  exact hirated hjrated

/-- C1 (amended): every ranked list returned on the PRIMARY path of
`recommend_for_user` contains no movie the target user has already rated;
the popularity-fallback path does NOT filter out the target's rated movies
and can return them (`claimC1_counterexample`). -/
theorem claimC1_primary_excludes_rated (ev : List RatingEvent) (movies : List Movie)
    (uid top_n k minR uIdx : Nat)
    (hfind : (fit_cf_model ev).userIds.findIdx? (fun u => u == uid) = some uIdx) :
    ∀ rows, recommend_for_user uid (fit_cf_model ev) movies ev top_n k minR
        = .ok (.primary rows) →
      ∀ r ∈ rows, ¬ ∃ e ∈ ev, e.userId = uid ∧ e.movieId = r.movieId := by
  intro rows hrows
  have hred : recommend_for_user uid (fit_cf_model ev) movies ev top_n k minR
      = recommendCore (fit_cf_model ev) movies ev uIdx top_n k minR := by
    unfold recommend_for_user
    rw [hfind]
  rw [hred] at hrows
  unfold recommendCore at hrows
  by_cases h1 : (candItems (fit_cf_model ev) uIdx k).isEmpty = true
  · rw [if_pos h1] at hrows
    cases hrows
  · rw [if_neg h1] at hrows
    by_cases h2 : (predsList (fit_cf_model ev) uIdx k).isEmpty = true
    · rw [if_pos h2] at hrows
      cases hrows
      intro r hr
      simp at hr
    · rw [if_neg h2] at hrows
      cases hrows
      exact primaryRows_not_rated hfind

/-! ## Claim C2 -/

theorem rowLookup_eq_zero_of_not_has {row : List (Nat × ℚ)} {i : Nat}
    (h : rowHas row i = false) : rowLookup row i = 0 := by
  unfold rowHas at h
  unfold rowLookup
  rcases hf : row.find? (fun p => p.1 == i) with - | p
  · rw [hf]
    rfl
  · rw [hf] at h
    simp at h

/-- Follows the spec's wording of the §4.4 step-6 formula: predicted rating =
target user's mean + (Σ over contributing neighbors of similarity × (neighbor's
raw rating − neighbor's mean)) / (Σ over the same neighbors of |similarity| +
a small epsilon), where the contributing neighbors are the selected neighbors
that have a STORED rating on the item. -/
noncomputable def specPredictedRating (b : CFBundle) (uIdx k i : Nat) : ℝ :=
  let contrib := (neighborIdx b uIdx k).filter (fun v => rowHas (b.mat.getD v []) i)
  (b.userMeans.getD uIdx 0 : ℝ)
    + (contrib.map (fun v => (simsAll b uIdx v).toReal
        * ((rowLookup (b.mat.getD v []) i - b.userMeans.getD v 0 : ℚ) : ℝ))).sum
      / ((contrib.map (fun v => |(simsAll b uIdx v).toReal|)).sum + denomEps)

/-- C2: on the primary path, for every candidate item the code's predicted
rating is defined and equals the spec formula (target mean plus the
similarity-weighted sum of contributing-neighbor deviations over the sum of
absolute similarities plus epsilon = 1e-8).  Rating values are strictly
positive (the domain invariant of §9), which makes the code's `col > 0` mask
select exactly the neighbors with a stored rating on the item. -/
theorem claimC2_prediction_formula (ev : List RatingEvent) (uid k i uIdx : Nat)
    (hpos : ∀ e ∈ ev, 0 < e.rating)
    (hfind : (fit_cf_model ev).userIds.findIdx? (fun u => u == uid) = some uIdx)
    (hi : i ∈ candItems (fit_cf_model ev) uIdx k) :
    predFor (fit_cf_model ev) uIdx k i
      = some (specPredictedRating (fit_cf_model ev) uIdx k i) := by
  have hcontrib : contribNeighbors (fit_cf_model ev) uIdx k i
      = (neighborIdx (fit_cf_model ev) uIdx k).filter
          (fun v => rowHas ((fit_cf_model ev).mat.getD v []) i) := by
    unfold contribNeighbors
    apply List.filter_congr
    intro v hv
    have hvlt : v < (userIdsOf ev).length := mem_neighborIdx_lt hv
    rw [fit_mat_getD hvlt]
    by_cases hhas : rowHas (rawRow ev v) i = true
    · rw [hhas]
      have h2 := hhas
      rw [rowHas_rawRow, Bool.and_eq_true, decide_eq_true_eq] at h2
      obtain ⟨hlt2, hpres⟩ := h2
      rw [rowLookup_rawRow hlt2 hpres]
      simpa using cellValue_pos hpos hpres
    · have hf : rowHas (rawRow ev v) i = false := by simpa using hhas
      rw [hf, rowLookup_eq_zero_of_not_has hf]
      norm_num
  rcases (mem_candItems.1 hi).2.2 with ⟨v, hv, hvhas⟩
  have hmem : v ∈ (neighborIdx (fit_cf_model ev) uIdx k).filter
      (fun v => rowHas ((fit_cf_model ev).mat.getD v []) i) :=
    List.mem_filter.2 ⟨hv, hvhas⟩
  have hnil : (neighborIdx (fit_cf_model ev) uIdx k).filter
      (fun v => rowHas ((fit_cf_model ev).mat.getD v []) i) ≠ [] :=
    List.ne_nil_of_mem hmem
  simp only [predFor, specPredictedRating]
  rw [hcontrib, if_neg (fun hc => hnil (List.isEmpty_iff.1 hc))]

/-! ## Claim C10 -/

/-- C10: with strictly positive rating values, whenever the candidate set is
non-empty every candidate item has at least one selected neighbor with a
positive stored rating, so the defensive skip (`predFor = none`) is
unreachable, the empty-result primary frame is never returned, and — for a
positive requested count N, as the interface prescribes — the primary output
列 is non-empty. -/
theorem claimC10_primary_nonempty (ev : List RatingEvent) (movies : List Movie)
    (uid top_n k minR uIdx : Nat)
    (hpos : ∀ e ∈ ev, 0 < e.rating)
    (hfind : (fit_cf_model ev).userIds.findIdx? (fun u => u == uid) = some uIdx)
    (hcand : candItems (fit_cf_model ev) uIdx k ≠ [])
    (hn : 1 ≤ top_n) :
    (∀ i ∈ candItems (fit_cf_model ev) uIdx k,
        (predFor (fit_cf_model ev) uIdx k i).isSome = true) ∧
    recommend_for_user uid (fit_cf_model ev) movies ev top_n k minR
      = .ok (.primary (primaryRows (fit_cf_model ev) movies uIdx top_n k)) ∧
    primaryRows (fit_cf_model ev) movies uIdx top_n k ≠ [] := by
  have hsome : ∀ i ∈ candItems (fit_cf_model ev) uIdx k,
      (predFor (fit_cf_model ev) uIdx k i).isSome = true := by
    intro i hi
    rcases (mem_candItems.1 hi).2.2 with ⟨v, hv, hvhas⟩
    have hvlt : v < (userIdsOf ev).length := mem_neighborIdx_lt hv
    have hvmem : v ∈ contribNeighbors (fit_cf_model ev) uIdx k i := by
      unfold contribNeighbors
      refine List.mem_filter.2 ⟨hv, ?_⟩
      rw [fit_mat_getD hvlt] at hvhas ⊢
      have h2 := hvhas
      rw [rowHas_rawRow, Bool.and_eq_true, decide_eq_true_eq] at h2
      obtain ⟨hlt2, hpres⟩ := h2
      rw [rowLookup_rawRow hlt2 hpres]
      simpa using cellValue_pos hpos hpres
    have hnil : contribNeighbors (fit_cf_model ev) uIdx k i ≠ [] :=
      List.ne_nil_of_mem hvmem
    unfold predFor
    rw [if_neg (fun hc => hnil (List.isEmpty_iff.1 hc))]
    rfl
  rcases List.exists_mem_of_ne_nil _ hcand with ⟨i0, hi0⟩
  rcases Option.isSome_iff_exists.1 (hsome i0 hi0) with ⟨val, hval⟩
  have hpmem : (i0, val) ∈ predsList (fit_cf_model ev) uIdx k :=
    List.mem_filterMap.2 ⟨i0, hi0, by rw [hval]; rfl⟩
  have hpnil : predsList (fit_cf_model ev) uIdx k ≠ [] := List.ne_nil_of_mem hpmem
  have hred : recommend_for_user uid (fit_cf_model ev) movies ev top_n k minR
      = recommendCore (fit_cf_model ev) movies ev uIdx top_n k minR := by
    unfold recommend_for_user
    rw [hfind]
  have hlink : recommend_for_user uid (fit_cf_model ev) movies ev top_n k minR
      = .ok (.primary (primaryRows (fit_cf_model ev) movies uIdx top_n k)) := by
    rw [hred]
    unfold recommendCore
    rw [if_neg (fun hc => hcand (List.isEmpty_iff.1 hc)),
      if_neg (fun hc => hpnil (List.isEmpty_iff.1 hc))]
  refine ⟨hsome, hlink, ?_⟩
  intro hnil2
  have hlen := congrArg List.length hnil2
  rw [show (primaryRows (fit_cf_model ev) movies uIdx top_n k).length
      = min top_n (predsList (fit_cf_model ev) uIdx k).length by
    unfold primaryRows
    rw [length_withRanks, List.length_take, length_sortByLE]] at hlen
  have hplen : 1 ≤ (predsList (fit_cf_model ev) uIdx k).length :=
    List.length_pos.2 hpnil
  rw [List.length_nil] at hlen
  omega

/-! ## Concrete evaluations on the example data

`evA` builds the bundle: user ids `[1, 2]`, movie ids `[10, 20, 30]`,
raw rows `[(0,5),(1,3)]` and `[(0,4),(2,2)]`, means `4` and `3`, centered rows
`[(0,1),(1,-1)]` and `[(0,1),(2,-1)]`, neighbor similarity `1/sqrt 4`. -/

theorem evA_cell110 : cellValue evA 1 10 = 5 := by norm_num [cellValue, evA]

theorem evA_cell120 : cellValue evA 1 20 = 3 := by norm_num [cellValue, evA]

theorem evA_cell210 : cellValue evA 2 10 = 4 := by norm_num [cellValue, evA]

theorem evA_cell230 : cellValue evA 2 30 = 2 := by norm_num [cellValue, evA]

theorem evA_raw0 : rawRow evA 0 = [(0, 5), (1, 3)] := by
  rw [show rawRow evA 0 = [(0, cellValue evA 1 10), (1, cellValue evA 1 20)] from rfl,
    evA_cell110, evA_cell120]

theorem evA_raw1 : rawRow evA 1 = [(0, 4), (2, 2)] := by
  rw [show rawRow evA 1 = [(0, cellValue evA 2 10), (2, cellValue evA 2 30)] from rfl,
    evA_cell210, evA_cell230]

theorem evA_mean0 : userMean evA 0 = 4 := by
  unfold userMean
  rw [evA_raw0]
  norm_num

theorem evA_mean1 : userMean evA 1 = 3 := by
  unfold userMean
  rw [evA_raw1]
  norm_num

theorem evA_matc0 : (fit_cf_model evA).matCentered.getD 0 [] = [(0, (1:ℚ)), (1, -1)] := by
  rw [fit_matCentered_getD (by decide), evA_raw0, evA_mean0]
  norm_num [centerRow]

theorem evA_matc1 : (fit_cf_model evA).matCentered.getD 1 [] = [(0, (1:ℚ)), (2, -1)] := by
  rw [fit_matCentered_getD (by decide), evA_raw1, evA_mean1]
  norm_num [centerRow]

theorem evA_mat0 : (fit_cf_model evA).mat.getD 0 [] = [(0, (5:ℚ)), (1, 3)] := by
  rw [fit_mat_getD (by decide), evA_raw0]

theorem evA_mat1 : (fit_cf_model evA).mat.getD 1 [] = [(0, (4:ℚ)), (2, 2)] := by
  rw [fit_mat_getD (by decide), evA_raw1]

theorem evA_sim00 : simsAll (fit_cf_model evA) 0 0 = ⟨0, 1⟩ := by
  unfold simsAll
  rw [if_pos rfl]

theorem evA_sim01 : simsAll (fit_cf_model evA) 0 1 = ⟨1, 4⟩ := by
  unfold simsAll
  rw [if_neg (by omega), evA_matc0, evA_matc1]
  unfold cosineSim
  rw [show rowDot [(0,(1:ℚ)),(1,-1)] [(0,(1:ℚ)),(1,-1)] = 2 from by
      norm_num [rowDot, rowLookup],
    show rowDot [(0,(1:ℚ)),(2,-1)] [(0,(1:ℚ)),(2,-1)] = 2 from by
      norm_num [rowDot, rowLookup],
    show rowDot [(0,(1:ℚ)),(1,-1)] [(0,(1:ℚ)),(2,-1)] = 1 from by
      norm_num [rowDot, rowLookup]]
  norm_num

theorem evA_neighbors : neighborIdx (fit_cf_model evA) 0 40 = [1, 0] := by
  unfold neighborIdx
  rw [show (fit_cf_model evA).userIds.length = 2 from by decide,
    show List.range 2 = [0, 1] from by decide]
  simp only [sortByLE, insertLE]
  rw [show SimVal.le (simsAll (fit_cf_model evA) 0 1) (simsAll (fit_cf_model evA) 0 0)
      = false from by
    rw [evA_sim01, evA_sim00]
    norm_num [SimVal.le]]
  rfl

theorem evA_candItems : candItems (fit_cf_model evA) 0 40 = [2] := by
  unfold candItems
  rw [evA_neighbors]
  decide

theorem evA_contrib2 : contribNeighbors (fit_cf_model evA) 0 40 2 = [1] := by
  unfold contribNeighbors
  rw [evA_neighbors]
  simp only [List.filter_cons, List.filter_nil, evA_mat0, evA_mat1]
  decide

/-- On `evA` the primary path executes and returns its ranked frame. -/
theorem evA_recommend_primary :
    recommend_for_user 1 (fit_cf_model evA) moviesA evA 10 40 5
      = .ok (.primary (primaryRows (fit_cf_model evA) moviesA 0 10 40)) := by
  have hpred : (predFor (fit_cf_model evA) 0 40 2).isSome = true := by
    unfold predFor
    rw [evA_contrib2, if_neg (by decide)]
    rfl
  have hpnil : predsList (fit_cf_model evA) 0 40 ≠ [] := by
    unfold predsList
    rw [evA_candItems]
    intro h
    rcases Option.isSome_iff_exists.1 hpred with ⟨val, hval⟩
    rw [List.filterMap_cons, hval] at h
    simp at h
  have hcnil : candItems (fit_cf_model evA) 0 40 ≠ [] := by
    rw [evA_candItems]
    simp
  have hred : recommend_for_user 1 (fit_cf_model evA) moviesA evA 10 40 5
      = recommendCore (fit_cf_model evA) moviesA evA 0 10 40 5 := by
    unfold recommend_for_user
    rw [show (fit_cf_model evA).userIds.findIdx? (fun u => u == 1) = some 0 from by decide]
  rw [hred]
  unfold recommendCore
  rw [if_neg (fun hc => hcnil (List.isEmpty_iff.1 hc)),
    if_neg (fun hc => hpnil (List.isEmpty_iff.1 hc))]

/-! Concrete evaluations on `evB`: five users, one movie, all centered rows
zero, so the candidate set of user 1 is empty and the popularity fallback
fires with movie 10 (count 5, mean 4) — a movie user 1 already rated. -/

theorem evB_candItems : candItems (fit_cf_model evB) 0 40 = [] := by decide

theorem evB_mean10 : ratingMean evB 10 = 4 := by
  unfold ratingMean ratingCount
  rw [show evB.filter (fun e => e.movieId == 10) = evB from by decide]
  norm_num [evB]

theorem evB_fallback : fallbackRows evB moviesB 10 5 = [⟨1, 10, "M", "Action", 4, 5⟩] := by
  simp only [fallbackRows]
  rw [show (movieIdsOf evB).filter (fun m => decide (5 ≤ ratingCount evB m)) = [10] from by
      decide,
    show (sortByLE (popLE evB) [10]).take 10 = [10] from rfl]
  simp only [withRanks]
  rw [show ((List.range ([10] : List Nat).length).zip [10]) = [(0, 10)] from rfl]
  simp only [List.map_cons, List.map_nil]
  rw [evB_mean10, show movieLookup moviesB 10 = ⟨10, "M", "Action"⟩ from by decide,
    show ratingCount evB 10 = 5 from by decide]

theorem claimC1_counterexample :
    recommend_for_user 1 (fit_cf_model evB) moviesB evB 10 40 5
      = .ok (.fallback [⟨1, 10, "M", "Action", 4, 5⟩])
    ∧ ∃ e ∈ evB, e.userId = 1 ∧ e.movieId = 10 := by
  constructor
  · have hred : recommend_for_user 1 (fit_cf_model evB) moviesB evB 10 40 5
        = recommendCore (fit_cf_model evB) moviesB evB 0 10 40 5 := by
      unfold recommend_for_user
      rw [show (fit_cf_model evB).userIds.findIdx? (fun u => u == 1) = some 0 from by decide]
    rw [hred]
    unfold recommendCore
    rw [if_pos (by rw [evB_candItems]; rfl), evB_fallback]
  · exact ⟨⟨1, 10, 4⟩, by decide, rfl, rfl⟩

theorem claimC1_witness :
    ((fit_cf_model evA).userIds.findIdx? (fun u => u == 1) = some 0) ∧
    (∀ r ∈ primaryRows (fit_cf_model evA) moviesA 0 10 40,
      ¬ ∃ e ∈ evA, e.userId = 1 ∧ e.movieId = r.movieId) :=
  ⟨by decide,
    claimC1_primary_excludes_rated evA moviesA 1 10 40 5 0 (by decide)
      (primaryRows (fit_cf_model evA) moviesA 0 10 40) evA_recommend_primary⟩

theorem claimC2_witness :
    (∀ e ∈ evA, 0 < e.rating) ∧
    ((fit_cf_model evA).userIds.findIdx? (fun u => u == 1) = some 0) ∧
    (2 ∈ candItems (fit_cf_model evA) 0 40) ∧
    predFor (fit_cf_model evA) 0 40 2
      = some (specPredictedRating (fit_cf_model evA) 0 40 2) :=
  ⟨by decide, by decide,
    by rw [evA_candItems]; exact List.mem_singleton.2 rfl,
    claimC2_prediction_formula evA 1 40 2 0 (by decide) (by decide)
      (by rw [evA_candItems]; exact List.mem_singleton.2 rfl)⟩

theorem claimC10_witness :
    (∀ e ∈ evA, 0 < e.rating) ∧ (candItems (fit_cf_model evA) 0 40 ≠ []) ∧
    ((1 : Nat) ≤ 10) ∧
    (primaryRows (fit_cf_model evA) moviesA 0 10 40 ≠ []) :=
  ⟨by decide, by rw [evA_candItems]; simp, by decide,
    (claimC10_primary_nonempty evA moviesA 1 10 40 5 0 (by decide) (by decide)
      (by rw [evA_candItems]; simp) (by decide)).2.2⟩

/-! ## Claim C9 -/

/-- C9 evidence: with neighbor count k = 0 — a non-positive value the spec
says must be rejected with InvalidArgument — and a present user id,
`recommend_for_user` raises nothing: it returns an ok popularity-fallback
frame (empty here because no movie reaches the rating-count threshold).
The source performs no validation of N or k. -/
theorem claimC9_no_validation :
    recommend_for_user 1 (fit_cf_model evA) moviesA evA 5 0 5
      = .ok (.fallback []) := by
  have hnb : neighborIdx (fit_cf_model evA) 0 0 = [] := by
    unfold neighborIdx
    rw [List.take_zero]
  have hcand : candItems (fit_cf_model evA) 0 0 = [] := by
    unfold candItems
    rw [hnb]
    simp
  have hfb : fallbackRows evA moviesA 5 5 = [] := by
    simp only [fallbackRows]
    rw [show (movieIdsOf evA).filter (fun m => decide (5 ≤ ratingCount evA m))
        = ([] : List Nat) from by decide]
    rfl
  have hred : recommend_for_user 1 (fit_cf_model evA) moviesA evA 5 0 5
      = recommendCore (fit_cf_model evA) moviesA evA 0 5 0 5 := by
    unfold recommend_for_user
    rw [show (fit_cf_model evA).userIds.findIdx? (fun u => u == 1) = some 0 from by decide]
  rw [hred]
  unfold recommendCore
  rw [if_pos (by rw [hcand]; rfl), hfb]

end MovieRec
